import Mathlib

/-!
Verification development for the in-memory job manager subsystem
(`clean_interfaces/jobs`): the `Job` model (`models.py`), the exception
taxonomy (`exceptions.py`), the lifecycle operations of `MemoryJobManager`
(`memory.py`) and the event-publishing helper of `BaseJobManager`
(`base.py`) are embedded shallowly as pure Lean functions.

Modelling conventions:
* `datetime.now(timezone.utc)` is passed in as an explicit `now : Nat`
  parameter; `uuid.uuid4()` as an explicit `newId : String` parameter.
* A Python `dict[str, Job]` is an insertion-ordered association list
  (`List (String × Job)`); key lookup takes the first match, and key
  assignment replaces in place (preserving position) or appends.
* CPython stores object references in the dict: `self._jobs[job_id]`
  yields the very object that was stored, so an attribute assignment
  `job.status = ...` on the value returned by `get_job` updates the store
  entry under that key.  The lifecycle operations of `memory.py` rely on
  exactly this (they write `job.status = ...` after `job = await
  self.get_job(job_id)` and never write the object back); we embed such a
  mutation as an in-place update of the association list at that key.
* A raised exception is an `Except.error`; since every operation of
  `memory.py` validates before mutating, the error branches construct no
  new state, mirroring the fact that a raise aborts the call with the
  store untouched.
* `payload` / `result` / `error` dictionaries are opaque to the manager;
  we model them as `List (String × String)`.
-/

/-- Job payload / result / error data: an opaque string-keyed dictionary. -/
abbrev PyDict := List (String × String)

/-- The `JobStatus` str-enum of `models.py`. -/
inductive JobStatus
  | pending
  | queued
  | running
  | completed
  | failed
  | cancelled
deriving DecidableEq

/-- The `.value` of each `JobStatus` member (its string payload). -/
def JobStatus.value : JobStatus → String
  | .pending => "pending"
  | .queued => "queued"
  | .running => "running"
  | .completed => "completed"
  | .failed => "failed"
  | .cancelled => "cancelled"

/-- The `JobType` str-enum of `models.py`. -/
inductive JobType
  | asyncJob
  | syncJob
deriving DecidableEq

/-- The `Job` pydantic model of `models.py` (fields in source order). -/
structure Job where
  id : String
  name : String
  job_type : JobType
  payload : PyDict
  status : JobStatus
  created_at : Nat
  started_at : Option Nat
  completed_at : Option Nat
  result : Option PyDict
  error : Option PyDict
deriving DecidableEq

/-- Exceptions that can escape the job-manager code: the four members of
the `JobManagerError` taxonomy of `exceptions.py`, plus pydantic's
`ValidationError`, which is *not* part of that taxonomy (it is raised by
the `Job` model itself during construction). -/
inductive PyErr
  | jobNotFound (job_id : String)
  | jobValidation (field message : Option String)
  | jobState (fromState toState message : Option String)
  | jobTimeout (job_id : Option String) (timeout_seconds : Option Nat) (message : Option String)
  | pydanticValidation (message : String)
deriving DecidableEq

/-- Whether an exception belongs to the `JobManagerError` taxonomy of
`exceptions.py` (pydantic's `ValidationError` does not). -/
def PyErr.isManagerError : PyErr → Bool
  | .pydanticValidation _ => false
  | _ => true

/-- Insertion-ordered dict lookup (`d[k]` / `k in d`): first matching key. -/
def dictLookup {α : Type} (k : String) : List (String × α) → Option α
  | [] => none
  | (k', v) :: rest => if k' = k then some v else dictLookup k rest

/-- Insertion-ordered dict assignment `d[k] = v`: replaces in place if the
key is present, otherwise appends. -/
def dictInsert {α : Type} (k : String) (v : α) : List (String × α) → List (String × α)
  | [] => [(k, v)]
  | (k', v') :: rest => if k' = k then (k, v) :: rest else (k', v') :: dictInsert k v rest

/-- State of a `MemoryJobManager` (`memory.py`): the `_is_running` flag
inherited from `BaseJobManager`, the `_jobs` dict and the `_queue` deque. -/
structure MemoryJobManager where
  is_running : Bool
  jobs : List (String × Job)
  queue : List String
deriving DecidableEq

/-- Embeds `MemoryJobManager.get_job`: return the stored job value or
raise `JobNotFoundError`. -/
def get_job (s : MemoryJobManager) (job_id : String) : Except PyErr Job :=
  match dictLookup job_id s.jobs with
  | none => .error (.jobNotFound job_id)
  | some j => .ok j

/-- Embeds `MemoryJobManager.submit_job`: only a `pending` job may be
queued; on success the status becomes `queued` (written through the
`get_job` alias) and the id is appended to the queue tail. -/
def submit_job (s : MemoryJobManager) (job_id : String) : Except PyErr MemoryJobManager :=
  match get_job s job_id with
  | .error e => .error e
  | .ok job =>
    if job.status ≠ JobStatus.pending then
      .error (.jobState (some job.status.value) (some JobStatus.queued.value)
        (some "Only pending jobs can be queued"))
    else
      .ok { s with
        jobs := dictInsert job_id { job with status := JobStatus.queued } s.jobs,
        queue := s.queue ++ [job_id] }

/-- Embeds `MemoryJobManager.start_job`: only a `queued` job may start; on
success the status becomes `running`, `started_at` is set to now, and the
id is removed from the queue, tolerating absence (`deque.remove` removes
the first occurrence and its `ValueError` is swallowed, which is exactly
`List.erase`). -/
def start_job (s : MemoryJobManager) (job_id : String) (now : Nat) : Except PyErr MemoryJobManager :=
  match get_job s job_id with
  | .error e => .error e
  | .ok job =>
    if job.status ≠ JobStatus.queued then
      .error (.jobState (some job.status.value) (some JobStatus.running.value)
        (some "Only queued jobs can be started"))
    else
      .ok { s with
        jobs := dictInsert job_id
          { job with status := JobStatus.running, started_at := some now } s.jobs,
        queue := s.queue.erase job_id }

/-- Embeds `MemoryJobManager.complete_job`: only a `running` job may
complete; on success the status becomes `completed` and `result` and
`completed_at` are set.  The queue is not touched. -/
def complete_job (s : MemoryJobManager) (job_id : String) (result : PyDict) (now : Nat) :
    Except PyErr MemoryJobManager :=
  match get_job s job_id with
  | .error e => .error e
  | .ok job =>
    if job.status ≠ JobStatus.running then
      .error (.jobState (some job.status.value) (some JobStatus.completed.value)
        (some "Only running jobs can be completed"))
    else
      .ok { s with
        jobs := dictInsert job_id
          { job with status := JobStatus.completed, result := some result,
                     completed_at := some now } s.jobs }

/-- Embeds `MemoryJobManager.fail_job`: a `running` or `queued` job may
fail; on success the status becomes `failed`, `error` and `completed_at`
are set, and the id is removed from the queue if present. -/
def fail_job (s : MemoryJobManager) (job_id : String) (error : PyDict) (now : Nat) :
    Except PyErr MemoryJobManager :=
  match get_job s job_id with
  | .error e => .error e
  | .ok job =>
    if ¬(job.status = JobStatus.running ∨ job.status = JobStatus.queued) then
      .error (.jobState (some job.status.value) (some JobStatus.failed.value)
        (some "Only running or queued jobs can be failed"))
    else
      .ok { s with
        jobs := dictInsert job_id
          { job with status := JobStatus.failed, error := some error,
                     completed_at := some now } s.jobs,
        queue := s.queue.erase job_id }

/-- Embeds `MemoryJobManager.cancel_job`: a `pending` or `queued` job may
be cancelled; on success the status becomes `cancelled`, `completed_at`
is set, and the id is removed from the queue if present. -/
def cancel_job (s : MemoryJobManager) (job_id : String) (now : Nat) :
    Except PyErr MemoryJobManager :=
  match get_job s job_id with
  | .error e => .error e
  | .ok job =>
    if ¬(job.status = JobStatus.pending ∨ job.status = JobStatus.queued) then
      .error (.jobState (some job.status.value) (some JobStatus.cancelled.value)
        (some "Only pending or queued jobs can be cancelled"))
    else
      .ok { s with
        jobs := dictInsert job_id
          { job with status := JobStatus.cancelled, completed_at := some now } s.jobs,
        queue := s.queue.erase job_id }

/-- Recursion of `MemoryJobManager.get_next_job` over the queue: peek the
head; a missing job (`JobNotFoundError` is caught) or a job no longer
`queued` gets its entry popped (`popleft`) before retrying; a valid head
is returned with the queue untouched (peek only). -/
def getNextJobAux (jobs : List (String × Job)) : List String → List String × Option Job
  | [] => ([], none)
  | jid :: rest =>
    match dictLookup jid jobs with
    | some j =>
      if j.status = JobStatus.queued then (jid :: rest, some j)
      else getNextJobAux jobs rest
    | none => getNextJobAux jobs rest

/-- Embeds `MemoryJobManager.get_next_job`: returns the possibly shrunk
queue together with the dequeued job (`None` on an empty or fully stale
queue).  The function is total: the only exception its body can meet,
`JobNotFoundError`, is caught inside. -/
def get_next_job (s : MemoryJobManager) : MemoryJobManager × Option Job :=
  let r := getNextJobAux s.jobs s.queue
  ({ s with queue := r.1 }, r.2)

/-- Characters removed by Python's default `str.strip()`, i.e. CPython's
`Py_UNICODE_ISSPACE`: U+0009–U+000D, U+001C–U+001F, the space, U+0085
(NEL), U+00A0 (NBSP), U+1680 (Ogham space mark), U+2000–U+200A,
U+2028/U+2029, U+202F, U+205F and U+3000. -/
def isPyWhitespace (c : Char) : Bool :=
  (0x09 ≤ c.toNat && c.toNat ≤ 0x0D) ||
  (0x1C ≤ c.toNat && c.toNat ≤ 0x1F) ||
  c = ' ' || c = '\x85' || c = '\xa0' || c = '\u1680' ||
  (0x2000 ≤ c.toNat && c.toNat ≤ 0x200A) ||
  c = '\u2028' || c = '\u2029' || c = '\u202F' || c = '\u205F' || c = '\u3000'

/-- Embeds Python's `str.strip()`: drop leading and trailing whitespace. -/
def pyStrip (v : String) : String :=
  ⟨((v.data.dropWhile isPyWhitespace).reverse.dropWhile isPyWhitespace).reverse⟩

/-- Validation that the `Job` pydantic model applies to `name`: the
`min_length=1` field constraint, then the `validate_name_not_empty`
field validator, which rejects whitespace-only names and returns the
stripped name.  Both failures surface as pydantic `ValidationError`s. -/
def validateName (v : String) : Except PyErr String :=
  if v.length < 1 then
    .error (.pydanticValidation "String should have at least 1 character")
  else if pyStrip v = "" then
    .error (.pydanticValidation "Job name cannot be empty or whitespace only")
  else
    .ok (pyStrip v)

/-- Extra keyword arguments forwarded by `create_job` into `Job(**job_data)`.
Since `job_data = {"name": name, "job_type": job_type, "payload": payload,
**kwargs}`, a keyword present in `kwargs` overrides the positional value or
the model default for the field of the same name. -/
structure CreateKwargs where
  id : Option String := none
  name : Option String := none
  job_type : Option JobType := none
  payload : Option PyDict := none
  status : Option JobStatus := none
  created_at : Option Nat := none
  started_at : Option (Option Nat) := none
  completed_at : Option (Option Nat) := none
  result : Option (Option PyDict) := none
  error : Option (Option PyDict) := none
deriving DecidableEq

/-- Embeds `Job(**job_data)` as built by `create_job`: keyword overrides
beat positional arguments and model defaults (`id` from `uuid4`,
`created_at` from `datetime.now`, status `pending`, null timestamps and
result/error), and the name validator runs on the final name value. -/
def mkJob (newId : String) (name : String) (jt : JobType) (payload : PyDict)
    (kw : CreateKwargs) (now : Nat) : Except PyErr Job :=
  match validateName (kw.name.getD name) with
  | .error e => .error e
  | .ok trimmed =>
    .ok { id := kw.id.getD newId
          name := trimmed
          job_type := kw.job_type.getD jt
          payload := kw.payload.getD payload
          status := kw.status.getD JobStatus.pending
          created_at := kw.created_at.getD now
          started_at := kw.started_at.getD none
          completed_at := kw.completed_at.getD none
          result := kw.result.getD none
          error := kw.error.getD none }

/-- Embeds `MemoryJobManager.create_job`: raises `JobStateError` (with only
a message) when the manager is not running, then constructs the `Job`
(whose validation may raise) and stores it under its id. -/
def create_job (s : MemoryJobManager) (newId : String) (name : String) (jt : JobType)
    (payload : PyDict) (kw : CreateKwargs) (now : Nat) :
    Except PyErr (MemoryJobManager × Job) :=
  if s.is_running = false then
    .error (.jobState none none (some "Job manager is not running"))
  else
    match mkJob newId name jt payload kw now with
    | .error e => .error e
    | .ok job => .ok ({ s with jobs := dictInsert job.id job s.jobs }, job)

/-- CPython slice index resolution for `l[a:b]`: negative indices count
from the end, and both ends clamp into `[0, n]`. -/
def pyIndex (n : Nat) (i : Int) : Nat :=
  if i < 0 then (i + n).toNat else min i.toNat n

/-- CPython list slice `l[a:b]` (`b = none` meaning an omitted stop). -/
def pySlice {α : Type} (l : List α) (a : Int) (b : Option Int) : List α :=
  let n := l.length
  let stop := match b with
    | none => n
    | some i => pyIndex n i
  (l.take stop).drop (pyIndex n a)

/-- Comparison used by `jobs.sort(key=lambda j: j.created_at, reverse=True)`:
descending by creation time.  Python's sort is stable, and a stable
descending sort is exactly `List.insertionSort` with this relation. -/
def newerFirst (a b : Job) : Prop := b.created_at ≤ a.created_at

instance : DecidableRel newerFirst := fun a b => Nat.decLe b.created_at a.created_at

/-- Embeds `MemoryJobManager.list_jobs`: snapshot the dict values, filter
by status if given, stably sort newest-first, then apply the Python slice
`jobs[offset : offset + limit]` (`jobs[offset:]` when `limit is None`). -/
def list_jobs (s : MemoryJobManager) (status : Option JobStatus) (limit : Option Int)
    (offset : Int) : List Job :=
  let jobs := s.jobs.map Prod.snd
  let jobs := match status with
    | none => jobs
    | some st => jobs.filter (fun j => j.status = st)
  let sorted := jobs.insertionSort newerFirst
  pySlice sorted offset (limit.map (fun k => offset + k))

/-- Outcome of awaiting one subscriber coroutine. -/
inductive HandlerOutcome
  | ok
  | exn (msg : String)
deriving DecidableEq

/-- Observable effects of one `_publish_event` call: whether the
`event_data` dict was constructed, the per-handler outcomes collected by
`asyncio.gather`, what the `except` branch logged, and what (if anything)
propagated to the publishing lifecycle operation. -/
structure PublishTrace (Ev : Type) where
  constructedEvent : Option Ev
  delivered : List HandlerOutcome
  logged : List String
  raisedToCaller : Option String
deriving DecidableEq

/-- Semantics of `asyncio.gather(*tasks, return_exceptions=True)`: every
task runs and its outcome — exception or not — is returned as a value;
the gather itself raises nothing on task failure. -/
def gatherReturnExceptions (tasks : List HandlerOutcome) :
    Except String (List HandlerOutcome) :=
  .ok tasks

/-- Embeds `BaseJobManager._publish_event`: with no subscribers it returns
before `event_data` is built; otherwise it builds the event once, invokes
every current handler through `asyncio.gather(..., return_exceptions=True)`
inside a `try` whose `except` branch logs and swallows anything the gather
raises. -/
def publish_event {Ev : Type} (handlers : List (Ev → HandlerOutcome))
    (mkEventData : Unit → Ev) : PublishTrace Ev :=
  if handlers.isEmpty then
    { constructedEvent := none, delivered := [], logged := [], raisedToCaller := none }
  else
    let eventData := mkEventData ()
    let tasks := handlers.map (fun h => h eventData)
    match gatherReturnExceptions tasks with
    | .ok results =>
      { constructedEvent := some eventData, delivered := results, logged := [],
        raisedToCaller := none }
    | .error e =>
      { constructedEvent := some eventData, delivered := [],
        logged := ["Error publishing event: " ++ e], raisedToCaller := none }

/-- Embeds `Job.__eq__` between two `Job` instances: compare by `id` only. -/
def jobEq (a b : Job) : Bool := a.id = b.id

/-- A Python value that a `Job` may be compared against. -/
inductive PyVal
  | jobV (j : Job)
  | strV (s : String)
  | intV (n : Int)
  | noneV
deriving DecidableEq

/-- Whether a `PyVal` is a `Job` instance (`isinstance(other, Job)`). -/
def PyVal.isJob : PyVal → Bool
  | .jobV _ => true
  | _ => false

/-- Embeds `Job.__eq__` against an arbitrary value: `False` whenever the
other value is not a `Job` instance, else comparison by `id`. -/
def jobEqAny (a : Job) : PyVal → Bool
  | .jobV b => jobEq a b
  | _ => false

/-- Embeds `Job.__hash__`: `hash(self.id)`, parameterised by the ambient
string hash function, so the hash depends on nothing but `id`. -/
def jobHash (h : String → UInt64) (j : Job) : UInt64 := h j.id

/-- Reference to the `Job` object a caller received: in CPython the store
hands out the very object it keeps under the key, so the reference is
identified by that key.  (`submit_job` and friends mutate the job through
exactly this alias and never write it back, and the API tests observe the
mutation through a later `get_job` — the store entry and the returned
object are one object.) -/
structure JobRef where
  key : String
deriving DecidableEq

/-- Embeds `MemoryJobManager.get_job` seen at the level of object identity:
`return self._jobs[job_id]` hands back a reference to the stored object. -/
def get_job_alias (s : MemoryJobManager) (job_id : String) : Except PyErr JobRef :=
  match dictLookup job_id s.jobs with
  | none => .error (.jobNotFound job_id)
  | some _ => .ok ⟨job_id⟩

/-- Dereference a job object reference in a manager state. -/
def readRef (s : MemoryJobManager) (r : JobRef) : Option Job :=
  dictLookup r.key s.jobs

/-- An attribute assignment (`job.name = newName`) performed by a *caller*
on the object it received: the write lands in the shared object, i.e. in
the store entry the reference aliases. -/
def writeRefName (s : MemoryJobManager) (r : JobRef) (newName : String) : MemoryJobManager :=
  match dictLookup r.key s.jobs with
  | none => s
  | some j => { s with jobs := dictInsert r.key { j with name := newName } s.jobs }

/-- The five status-transition operations of the manager, with the data
each one carries (`now` standing for the `datetime.now` observed inside). -/
inductive LifecycleOp
  | submitOp
  | startOp (now : Nat)
  | completeOp (result : PyDict) (now : Nat)
  | failOp (error : PyDict) (now : Nat)
  | cancelOp (now : Nat)

/-- Dispatch a lifecycle operation to its implementation in `memory.py`. -/
def applyOp (s : MemoryJobManager) (job_id : String) : LifecycleOp → Except PyErr MemoryJobManager
  | .submitOp => submit_job s job_id
  | .startOp now => start_job s job_id now
  | .completeOp result now => complete_job s job_id result now
  | .failOp error now => fail_job s job_id error now
  | .cancelOp now => cancel_job s job_id now

/-- Precondition column of the §4.4 transition table (spec side). -/
def SpecPre : LifecycleOp → JobStatus → Prop
  | .submitOp, st => st = JobStatus.pending
  | .startOp _, st => st = JobStatus.queued
  | .completeOp _ _, st => st = JobStatus.running
  | .failOp _ _, st => st = JobStatus.running ∨ st = JobStatus.queued
  | .cancelOp _, st => st = JobStatus.pending ∨ st = JobStatus.queued

instance : ∀ (op : LifecycleOp) (st : JobStatus), Decidable (SpecPre op st) := by
  intro op st
  cases op <;> simp only [SpecPre] <;> infer_instance

/-- Target state column of the §4.4 transition table (spec side). -/
def SpecTarget : LifecycleOp → JobStatus
  | .submitOp => JobStatus.queued
  | .startOp _ => JobStatus.running
  | .completeOp _ _ => JobStatus.completed
  | .failOp _ _ => JobStatus.failed
  | .cancelOp _ => JobStatus.cancelled

/-- Post-condition column of the §4.4 table (spec side): exactly the
fields the table names change, all others stay as they were. -/
def SpecPost (op : LifecycleOp) (j : Job) : Job :=
  match op with
  | .submitOp => { j with status := JobStatus.queued }
  | .startOp now => { j with status := JobStatus.running, started_at := some now }
  | .completeOp result now =>
      { j with status := JobStatus.completed, result := some result, completed_at := some now }
  | .failOp error now =>
      { j with status := JobStatus.failed, error := some error, completed_at := some now }
  | .cancelOp now => { j with status := JobStatus.cancelled, completed_at := some now }

/-- Queue effect column of the §4.4 table (spec side): submit appends to
the tail, start/fail/cancel remove the id tolerating absence, complete
leaves the queue alone. -/
def SpecQueue (op : LifecycleOp) (job_id : String) (q : List String) : List String :=
  match op with
  | .submitOp => q ++ [job_id]
  | .startOp _ => q.erase job_id
  | .completeOp _ _ => q
  | .failOp _ _ => q.erase job_id
  | .cancelOp _ => q.erase job_id

/-- Stale queue entry as the spec describes it: the referenced job is
missing from the store or no longer in `queued` status. -/
def SpecStale (jobs : List (String × Job)) (jid : String) : Bool :=
  match dictLookup jid jobs with
  | some j => !(j.status = JobStatus.queued : Bool)
  | none => true

/-- Number of stale entries `get_next_job` discards, i.e. the number of
recursive retry steps its recursion takes (one `popleft` per step). -/
def getNextJobSteps (jobs : List (String × Job)) : List String → Nat
  | [] => 0
  | jid :: rest =>
    match dictLookup jid jobs with
    | some j =>
      if j.status = JobStatus.queued then 0
      else getNextJobSteps jobs rest + 1
    | none => getNextJobSteps jobs rest + 1

/-- Pagination as the spec words it: offset applied first (skip that many
jobs), then limit truncates the remainder, `limit = none` keeping all
remaining jobs.  Filtering and newest-first stable sorting as in §4.1. -/
def SpecListJobs (s : MemoryJobManager) (status : Option JobStatus) (limit : Option Int)
    (offset : Int) : List Job :=
  let jobs := s.jobs.map Prod.snd
  let jobs := match status with
    | none => jobs
    | some st => jobs.filter (fun j => j.status = st)
  let sorted := jobs.insertionSort newerFirst
  let afterOffset := sorted.drop offset.toNat
  match limit with
  | none => afterOffset
  | some k => afterOffset.take k.toNat

/-- Lookup after inserting at the same key finds the inserted value. -/
theorem dictLookup_dictInsert_self {α : Type} (k : String) (v : α) (m : List (String × α)) :
    dictLookup k (dictInsert k v m) = some v := by
  induction m with
  | nil => simp [dictLookup, dictInsert]
  | cons hd tl ih =>
    obtain ⟨k', v'⟩ := hd
    by_cases h : k' = k <;> simp [dictLookup, dictInsert, h, ih]

/-- Lookup at a different key is unaffected by an insertion. -/
theorem dictLookup_dictInsert_ne {α : Type} {k k' : String} (v : α) (m : List (String × α))
    (h : k' ≠ k) : dictLookup k' (dictInsert k v m) = dictLookup k' m := by
  have h' : ¬(k = k') := fun hc => h hc.symm
  induction m with
  | nil => simp [dictLookup, dictInsert, h']
  | cons hd tl ih =>
    obtain ⟨k₀, v₀⟩ := hd
    by_cases h₀ : k₀ = k
    · subst h₀
      simp [dictLookup, dictInsert, h']
    · by_cases h₁ : k₀ = k' <;> simp [dictLookup, dictInsert, h₀, h₁, h, ih]

/-- Success of `get_job` is exactly a successful dict lookup. -/
theorem get_job_eq_ok {s : MemoryJobManager} {jid : String} {job : Job} :
    get_job s jid = .ok job ↔ dictLookup jid s.jobs = some job := by
  unfold get_job
  cases h : dictLookup jid s.jobs <;> simp

/-- C1: for every job and lifecycle operation (submit, start, complete,
fail, cancel), if the job's current status satisfies the §4.4
precondition, the operation succeeds and rewrites the store entry to
exactly the table's post-condition fields (status; `started_at` on start;
`result`/`completed_at` on complete; `error`/`completed_at` on fail;
`completed_at` on cancel) with the table's queue effect; if the status
violates the precondition, the operation raises a `JobStateError`
carrying the attempted from-state and to-state, and — the raise happening
before any mutation — the store and queue are left unchanged. -/
theorem lifecycle_ops_match_state_table (s : MemoryJobManager) (jid : String)
    (op : LifecycleOp) (job : Job) (hget : get_job s jid = .ok job) :
    (SpecPre op job.status →
      applyOp s jid op = .ok { s with
        jobs := dictInsert jid (SpecPost op job) s.jobs,
        queue := SpecQueue op jid s.queue })
    ∧ (¬ SpecPre op job.status →
      ∃ msg, applyOp s jid op = .error (.jobState (some job.status.value)
        (some (SpecTarget op).value) (some msg))) := by
  cases op with
  | submitOp =>
    constructor
    · intro hpre
      simp only [SpecPre] at hpre
      simp [applyOp, submit_job, hget, hpre, SpecPost, SpecQueue]
    · intro hpre
      simp only [SpecPre] at hpre
      exact ⟨"Only pending jobs can be queued",
        by simp [applyOp, submit_job, hget, hpre, SpecTarget]⟩
  | startOp now =>
    constructor
    · intro hpre
      simp only [SpecPre] at hpre
      simp [applyOp, start_job, hget, hpre, SpecPost, SpecQueue]
    · intro hpre
      simp only [SpecPre] at hpre
      exact ⟨"Only queued jobs can be started",
        by simp [applyOp, start_job, hget, hpre, SpecTarget]⟩
  | completeOp result now =>
    constructor
    · intro hpre
      simp only [SpecPre] at hpre
      simp [applyOp, complete_job, hget, hpre, SpecPost, SpecQueue]
    · intro hpre
      simp only [SpecPre] at hpre
      exact ⟨"Only running jobs can be completed",
        by simp [applyOp, complete_job, hget, hpre, SpecTarget]⟩
  | failOp error now =>
    constructor
    · intro hpre
      simp only [SpecPre] at hpre
      simp [applyOp, fail_job, hget, hpre, SpecPost, SpecQueue]
    · intro hpre
      simp only [SpecPre] at hpre
      exact ⟨"Only running or queued jobs can be failed",
        by simp [applyOp, fail_job, hget, hpre, SpecTarget]⟩
  | cancelOp now =>
    constructor
    · intro hpre
      simp only [SpecPre] at hpre
      simp [applyOp, cancel_job, hget, hpre, SpecPost, SpecQueue]
    · intro hpre
      simp only [SpecPre] at hpre
      exact ⟨"Only pending or queued jobs can be cancelled",
        by simp [applyOp, cancel_job, hget, hpre, SpecTarget]⟩

/-- Shape of a successful `submit_job` on a pending job. -/
theorem submit_job_ok (s : MemoryJobManager) (jid : String) (j : Job)
    (hl : dictLookup jid s.jobs = some j) (hst : j.status = JobStatus.pending) :
    submit_job s jid = .ok { s with
      jobs := dictInsert jid { j with status := JobStatus.queued } s.jobs,
      queue := s.queue ++ [jid] } := by
  have hget : get_job s jid = .ok j := get_job_eq_ok.mpr hl
  simp [submit_job, hget, hst]

/-- Shape of a successful `start_job` on a queued job. -/
theorem start_job_ok (s : MemoryJobManager) (jid : String) (j : Job) (now : Nat)
    (hl : dictLookup jid s.jobs = some j) (hst : j.status = JobStatus.queued) :
    start_job s jid now = .ok { s with
      jobs := dictInsert jid
        { j with status := JobStatus.running, started_at := some now } s.jobs,
      queue := s.queue.erase jid } := by
  have hget : get_job s jid = .ok j := get_job_eq_ok.mpr hl
  simp [start_job, hget, hst]

/-- C2: starting from an empty queue, jobs submitted in order A, B, C are
handed out by `get_next_job` in that same order: A first, then — once A
has left the `queued` status (here by being started) — B, then C.  The
queue is strict FIFO; insertion order equals processing order. -/
theorem fifo_processing_order (s : MemoryJobManager) (ia ib ic : String)
    (ja jb jc : Job) (n1 n2 : Nat)
    (hq : s.queue = [])
    (hab : ia ≠ ib) (hac : ia ≠ ic) (hbc : ib ≠ ic)
    (ha : dictLookup ia s.jobs = some ja)
    (hb : dictLookup ib s.jobs = some jb)
    (hc : dictLookup ic s.jobs = some jc)
    (hsa : ja.status = JobStatus.pending)
    (hsb : jb.status = JobStatus.pending)
    (hsc : jc.status = JobStatus.pending) :
    ∃ s1 s2 s3 s4 s5,
      submit_job s ia = .ok s1 ∧
      submit_job s1 ib = .ok s2 ∧
      submit_job s2 ic = .ok s3 ∧
      (get_next_job s3).2 = some { ja with status := JobStatus.queued } ∧
      start_job s3 ia n1 = .ok s4 ∧
      (get_next_job s4).2 = some { jb with status := JobStatus.queued } ∧
      start_job s4 ib n2 = .ok s5 ∧
      (get_next_job s5).2 = some { jc with status := JobStatus.queued } := by
  obtain ⟨run, js, q⟩ := s
  simp only at hq ha hb hc
  subst hq
  refine ⟨⟨run, dictInsert ia { ja with status := JobStatus.queued } js, [ia]⟩,
    ⟨run, dictInsert ib { jb with status := JobStatus.queued }
      (dictInsert ia { ja with status := JobStatus.queued } js), [ia, ib]⟩,
    ⟨run, dictInsert ic { jc with status := JobStatus.queued }
      (dictInsert ib { jb with status := JobStatus.queued }
        (dictInsert ia { ja with status := JobStatus.queued } js)), [ia, ib, ic]⟩,
    ⟨run, dictInsert ia { ja with status := JobStatus.running, started_at := some n1 }
      (dictInsert ic { jc with status := JobStatus.queued }
        (dictInsert ib { jb with status := JobStatus.queued }
          (dictInsert ia { ja with status := JobStatus.queued } js))), [ib, ic]⟩,
    ⟨run, dictInsert ib { jb with status := JobStatus.running, started_at := some n2 }
      (dictInsert ia { ja with status := JobStatus.running, started_at := some n1 }
        (dictInsert ic { jc with status := JobStatus.queued }
          (dictInsert ib { jb with status := JobStatus.queued }
            (dictInsert ia { ja with status := JobStatus.queued } js)))), [ic]⟩,
    ?_, ?_, ?_, ?_, ?_, ?_, ?_, ?_⟩
  · exact submit_job_ok _ _ _ ha hsa
  · exact submit_job_ok _ _ _
      (by rw [dictLookup_dictInsert_ne _ _ hab.symm]; exact hb) hsb
  · exact submit_job_ok _ _ _
      (by rw [dictLookup_dictInsert_ne _ _ hbc.symm,
              dictLookup_dictInsert_ne _ _ hac.symm]; exact hc) hsc
  · simp [get_next_job, getNextJobAux, dictLookup_dictInsert_ne _ _ hac,
      dictLookup_dictInsert_ne _ _ hab, dictLookup_dictInsert_self]
  · have := start_job_ok
      ⟨run, dictInsert ic { jc with status := JobStatus.queued }
        (dictInsert ib { jb with status := JobStatus.queued }
          (dictInsert ia { ja with status := JobStatus.queued } js)), [ia, ib, ic]⟩
      ia { ja with status := JobStatus.queued } n1
      (by rw [dictLookup_dictInsert_ne _ _ hac, dictLookup_dictInsert_ne _ _ hab]
          exact dictLookup_dictInsert_self ..) rfl
    simpa [List.erase_cons, hab.symm, hac.symm] using this
  · simp [get_next_job, getNextJobAux, dictLookup_dictInsert_ne _ _ hab.symm,
      dictLookup_dictInsert_ne _ _ hbc, dictLookup_dictInsert_self]
  · have := start_job_ok
      ⟨run, dictInsert ia { ja with status := JobStatus.running, started_at := some n1 }
        (dictInsert ic { jc with status := JobStatus.queued }
          (dictInsert ib { jb with status := JobStatus.queued }
            (dictInsert ia { ja with status := JobStatus.queued } js))), [ib, ic]⟩
      ib { jb with status := JobStatus.queued } n2
      (by rw [dictLookup_dictInsert_ne _ _ hab.symm, dictLookup_dictInsert_ne _ _ hbc,
              dictLookup_dictInsert_self]) rfl
    simpa [List.erase_cons, hbc.symm] using this
  · simp [get_next_job, getNextJobAux, dictLookup_dictInsert_ne _ _ hbc.symm,
      dictLookup_dictInsert_ne _ _ hac.symm, dictLookup_dictInsert_self]

/-- The queue recursion of `get_next_job` drops exactly the maximal stale
prefix and answers with the store record referenced by the first
non-stale entry, if any. -/
theorem getNextJobAux_spec (jobs : List (String × Job)) (q : List String) :
    getNextJobAux jobs q = (q.dropWhile (SpecStale jobs),
      (q.dropWhile (SpecStale jobs)).head?.bind (fun jid => dictLookup jid jobs)) := by
  induction q with
  | nil => simp [getNextJobAux]
  | cons jid rest ih =>
    cases hl : dictLookup jid jobs with
    | none => simp [getNextJobAux, hl, List.dropWhile_cons, SpecStale, ih]
    | some j =>
      by_cases hs : j.status = JobStatus.queued
      · simp [getNextJobAux, hl, hs, List.dropWhile_cons, SpecStale]
      · simp [getNextJobAux, hl, hs, List.dropWhile_cons, SpecStale, ih]

/-- C3: `get_next_job` is a total function of the store and queue — it
raises no error on any state (the one exception its body can meet is
caught).  It permanently discards the maximal prefix of queue entries
whose referenced job is missing or no longer `queued`, leaves the store
untouched, and returns the store record referenced by the first remaining
entry — a job still in `queued` status — or `none` when the queue is
empty or holds only stale entries. -/
theorem get_next_job_total_spec (s : MemoryJobManager) :
    get_next_job s = ({ s with queue := s.queue.dropWhile (SpecStale s.jobs) },
      (s.queue.dropWhile (SpecStale s.jobs)).head?.bind
        (fun jid => dictLookup jid s.jobs)) := by
  simp [get_next_job, getNextJobAux_spec]

/-- Each retry step of the queue recursion is paid for by one permanently
removed entry: step count plus final queue length equals the initial
queue length. -/
theorem getNextJobSteps_spec (jobs : List (String × Job)) (q : List String) :
    getNextJobSteps jobs q ≤ q.length ∧
    q.length = getNextJobSteps jobs q + (getNextJobAux jobs q).1.length := by
  induction q with
  | nil => simp [getNextJobSteps, getNextJobAux]
  | cons jid rest ih =>
    cases hl : dictLookup jid jobs with
    | none =>
      simp only [getNextJobSteps, getNextJobAux, hl, List.length_cons]
      omega
    | some j =>
      by_cases hs : j.status = JobStatus.queued
      · simp [getNextJobSteps, getNextJobAux, hl, hs]
      · have h1 : getNextJobSteps jobs (jid :: rest) = getNextJobSteps jobs rest + 1 := by
          simp [getNextJobSteps, hl, hs]
        have h2 : getNextJobAux jobs (jid :: rest) = getNextJobAux jobs rest := by
          simp [getNextJobAux, hl, hs]
        rw [h1, h2, List.length_cons]
        omega

/-- C4: the stale-entry retry recursion of `get_next_job` terminates (it
is a total function), its number of retry steps is bounded by the queue
length, and each step removes exactly one stale entry — the initial queue
length is the step count plus the length of the queue it leaves behind —
even when the queue holds only stale entries. -/
theorem get_next_job_retries_bounded (s : MemoryJobManager) :
    getNextJobSteps s.jobs s.queue ≤ s.queue.length ∧
    s.queue.length = getNextJobSteps s.jobs s.queue + (get_next_job s).1.queue.length := by
  have h := getNextJobSteps_spec s.jobs s.queue
  exact ⟨h.1, by simpa [get_next_job] using h.2⟩

/-- Concrete pending job used by witnesses and counterexamples. -/
def sampleJob : Job :=
  { id := "a", name := "task-a", job_type := JobType.syncJob, payload := [],
    status := JobStatus.pending, created_at := 0, started_at := none,
    completed_at := none, result := none, error := none }

/-- Second concrete pending job. -/
def sampleJobB : Job :=
  { sampleJob with id := "b", name := "task-b", created_at := 1 }

/-- Third concrete pending job. -/
def sampleJobC : Job :=
  { sampleJob with id := "c", name := "task-c", created_at := 2 }

/-- Concrete running manager holding the three pending jobs. -/
def sampleState : MemoryJobManager :=
  { is_running := true,
    jobs := [("a", sampleJob), ("b", sampleJobB), ("c", sampleJobC)],
    queue := [] }

/-- Witness for C1: the table theorem applied to submitting the concrete
pending job `"a"`. -/
theorem lifecycle_ops_match_state_table_witness :
    get_job sampleState "a" = .ok sampleJob ∧
    ((SpecPre LifecycleOp.submitOp sampleJob.status →
      applyOp sampleState "a" LifecycleOp.submitOp = .ok { sampleState with
        jobs := dictInsert "a" (SpecPost LifecycleOp.submitOp sampleJob) sampleState.jobs,
        queue := SpecQueue LifecycleOp.submitOp "a" sampleState.queue })
    ∧ (¬ SpecPre LifecycleOp.submitOp sampleJob.status →
      ∃ msg, applyOp sampleState "a" LifecycleOp.submitOp = .error (.jobState
        (some sampleJob.status.value) (some (SpecTarget LifecycleOp.submitOp).value)
        (some msg)))) :=
  ⟨rfl, lifecycle_ops_match_state_table sampleState "a" LifecycleOp.submitOp sampleJob rfl⟩

/-- Witness for C2: the FIFO theorem applied to the concrete three-job
store with ids a, b, c. -/
theorem fifo_processing_order_witness :
    sampleState.queue = [] ∧
    ("a" : String) ≠ "b" ∧ ("a" : String) ≠ "c" ∧ ("b" : String) ≠ "c" ∧
    dictLookup "a" sampleState.jobs = some sampleJob ∧
    dictLookup "b" sampleState.jobs = some sampleJobB ∧
    dictLookup "c" sampleState.jobs = some sampleJobC ∧
    sampleJob.status = JobStatus.pending ∧
    sampleJobB.status = JobStatus.pending ∧
    sampleJobC.status = JobStatus.pending ∧
    (∃ s1 s2 s3 s4 s5,
      submit_job sampleState "a" = .ok s1 ∧
      submit_job s1 "b" = .ok s2 ∧
      submit_job s2 "c" = .ok s3 ∧
      (get_next_job s3).2 = some { sampleJob with status := JobStatus.queued } ∧
      start_job s3 "a" 10 = .ok s4 ∧
      (get_next_job s4).2 = some { sampleJobB with status := JobStatus.queued } ∧
      start_job s4 "b" 11 = .ok s5 ∧
      (get_next_job s5).2 = some { sampleJobC with status := JobStatus.queued }) :=
  ⟨rfl, by decide, by decide, by decide, rfl, rfl, rfl, rfl, rfl, rfl,
    fifo_processing_order sampleState "a" "b" "c" sampleJob sampleJobB sampleJobC 10 11
      rfl (by decide) (by decide) (by decide) rfl rfl rfl rfl rfl rfl⟩

/-- C5 counterexample: the value `get_job` returns is not a copy — a
caller's field write through the returned reference changes the record
held in the store (name `"task-a"` becomes `"mutated"`), refuting the
claim that mutating a returned value never changes the stored record. -/
theorem returned_job_aliases_store_counterexample :
    get_job_alias sampleState "a" = .ok ⟨"a"⟩ ∧
    (readRef sampleState ⟨"a"⟩).map Job.name = some "task-a" ∧
    (readRef (writeRefName sampleState ⟨"a"⟩ "mutated") ⟨"a"⟩).map Job.name =
      some "mutated" :=
  ⟨rfl, rfl, rfl⟩

/-- C5 amended: callers of `get_job` receive the store's own `Job` record,
not a copy or read-only view — the store and the caller share one object,
and a caller's field write through the returned reference is visible in
the stored record (aliasing the lifecycle operations themselves rely on). -/
theorem get_job_returns_alias (s : MemoryJobManager) (jid nm : String) (j : Job)
    (hl : dictLookup jid s.jobs = some j) :
    get_job_alias s jid = .ok ⟨jid⟩ ∧
    readRef (writeRefName s ⟨jid⟩ nm) ⟨jid⟩ = some { j with name := nm } := by
  constructor
  · simp [get_job_alias, hl]
  · simp [writeRefName, readRef, hl, dictLookup_dictInsert_self]

/-- Witness for the amended C5 at the concrete store. -/
theorem get_job_returns_alias_witness :
    dictLookup "a" sampleState.jobs = some sampleJob ∧
    (get_job_alias sampleState "a" = .ok ⟨"a"⟩ ∧
     readRef (writeRefName sampleState ⟨"a"⟩ "renamed") ⟨"a"⟩ =
       some { sampleJob with name := "renamed" }) :=
  ⟨rfl, get_job_returns_alias sampleState "a" "renamed" sampleJob rfl⟩

/-- No extra keyword arguments: `create_job(name, job_type, payload)`. -/
def noKwargs : CreateKwargs := {}

/-- C6 counterexample: on a running manager a whitespace-only name makes
`create_job` fail, but with pydantic's `ValidationError` raised by the
`Job` model — an exception outside the `JobManagerError` taxonomy (whose
`JobValidationError` member is never raised) — refuting the claim that
the failure is a Validation error of the manager error taxonomy. -/
theorem create_job_whitespace_error_counterexample :
    create_job sampleState "nid" "   " JobType.syncJob [] noKwargs 0 =
      .error (.pydanticValidation "Job name cannot be empty or whitespace only") ∧
    PyErr.isManagerError
      (.pydanticValidation "Job name cannot be empty or whitespace only") = false :=
  ⟨rfl, rfl⟩

/-- C6 amended: on a running manager, a name that is empty or whitespace
only makes `create_job` fail with pydantic's `ValidationError` (not a
member of the manager error taxonomy), while a name that is non-empty
after trimming yields a stored job whose name is the input with
surrounding whitespace removed. -/
theorem create_job_name_validation (s : MemoryJobManager) (newId name : String)
    (jt : JobType) (payload : PyDict) (now : Nat) (hrun : s.is_running = true) :
    (pyStrip name = "" →
      ∃ m, create_job s newId name jt payload noKwargs now =
             .error (.pydanticValidation m) ∧
           PyErr.isManagerError (.pydanticValidation m) = false) ∧
    (pyStrip name ≠ "" →
      ∃ t j, create_job s newId name jt payload noKwargs now = .ok (t, j) ∧
        j.name = pyStrip name ∧ dictLookup j.id t.jobs = some j) := by
  constructor
  · intro hws
    by_cases hlen : name.length < 1
    · exact ⟨"String should have at least 1 character",
        by simp [create_job, hrun, mkJob, noKwargs, validateName, hlen], rfl⟩
    · exact ⟨"Job name cannot be empty or whitespace only",
        by simp [create_job, hrun, mkJob, noKwargs, validateName, hlen, hws], rfl⟩
  · intro hws
    have hlen : ¬ name.length < 1 := by
      intro h
      have h0 : name.data.length = 0 := by
        have : name.length = name.data.length := rfl
        omega
      have hd : name.data = [] := List.length_eq_zero.mp h0
      have : name = "" := by
        cases name
        simp_all
      rw [this] at hws
      exact hws rfl
    refine ⟨{ s with
        jobs := dictInsert newId
          ({ id := newId, name := pyStrip name, job_type := jt, payload := payload,
             status := JobStatus.pending, created_at := now, started_at := none,
             completed_at := none, result := none, error := none } : Job) s.jobs },
      { id := newId, name := pyStrip name, job_type := jt, payload := payload,
        status := JobStatus.pending, created_at := now, started_at := none,
        completed_at := none, result := none, error := none }, ?_, rfl, ?_⟩
    · simp [create_job, hrun, mkJob, noKwargs, validateName, hlen, hws]
    · simpa using dictLookup_dictInsert_self newId _ s.jobs

/-- Witness for the amended C6: creating `"  hi  "` on the concrete
running manager stores the trimmed name `"hi"`. -/
theorem create_job_name_validation_witness :
    sampleState.is_running = true ∧
    ((pyStrip "  hi  " = "" →
      ∃ m, create_job sampleState "nid" "  hi  " JobType.syncJob [] noKwargs 0 =
             .error (.pydanticValidation m) ∧
           PyErr.isManagerError (.pydanticValidation m) = false) ∧
    (pyStrip "  hi  " ≠ "" →
      ∃ t j, create_job sampleState "nid" "  hi  " JobType.syncJob [] noKwargs 0 =
               .ok (t, j) ∧
        j.name = pyStrip "  hi  " ∧ dictLookup j.id t.jobs = some j)) :=
  ⟨rfl, create_job_name_validation sampleState "nid" "  hi  " JobType.syncJob [] 0 rfl⟩

/-- Keyword arguments carrying a `status` override. -/
def statusKwargs : CreateKwargs := { status := some JobStatus.running }

/-- The job `create_job` builds when the caller smuggles
`status=JobStatus.RUNNING` through `**kwargs`. -/
def overriddenJob : Job :=
  { id := "nid", name := "task", job_type := JobType.syncJob, payload := [],
    status := JobStatus.running, created_at := 0, started_at := none,
    completed_at := none, result := none, error := none }

/-- C7 counterexample: `create_job` forwards `**kwargs` into
`Job(**job_data)`, so an invocation passing `status=JobStatus.RUNNING`
inserts a job whose status is `running`, not `pending` — refuting the
claim for invocations passing additional keyword parameters. -/
theorem create_job_status_override_counterexample :
    create_job sampleState "nid" "task" JobType.syncJob [] statusKwargs 0 =
      .ok ({ sampleState with jobs := dictInsert "nid" overriddenJob sampleState.jobs },
        overriddenJob) ∧
    overriddenJob.status ≠ JobStatus.pending :=
  ⟨rfl, by decide⟩

/-- C7 amended: for every invocation of `create_job` on a running manager
whose extra keyword parameters do not override `status`, the job it
inserts into the store has status `pending`, the initial state assigned
at creation. -/
theorem create_job_inserts_pending (s : MemoryJobManager) (newId name : String)
    (jt : JobType) (payload : PyDict) (kw : CreateKwargs) (now : Nat)
    (hkw : kw.status = none) :
    ∀ t j, create_job s newId name jt payload kw now = .ok (t, j) →
      j.status = JobStatus.pending ∧ dictLookup j.id t.jobs = some j := by
  intro t j h
  rw [create_job] at h
  by_cases hrun : s.is_running = false
  · rw [if_pos hrun] at h
    exact absurd h (by simp)
  · rw [if_neg hrun] at h
    cases hv : mkJob newId name jt payload kw now with
    | error e =>
      rw [hv] at h
      exact absurd h (by simp)
    | ok job =>
      rw [hv] at h
      obtain ⟨rfl, rfl⟩ := Prod.ext_iff.mp (Except.ok.inj h)
      rw [mkJob] at hv
      cases hvn : validateName (kw.name.getD name) with
      | error e =>
        rw [hvn] at hv
        exact absurd hv (by simp)
      | ok trimmed =>
        rw [hvn] at hv
        obtain rfl := Except.ok.inj hv
        exact ⟨by simp [hkw], by simpa using dictLookup_dictInsert_self _ _ s.jobs⟩

/-- Witness for the amended C7 at a concrete kwargs-free invocation. -/
theorem create_job_inserts_pending_witness :
    noKwargs.status = none ∧
    (∀ t j, create_job sampleState "nid" "task" JobType.syncJob [] noKwargs 0 = .ok (t, j) →
      j.status = JobStatus.pending ∧ dictLookup j.id t.jobs = some j) :=
  ⟨rfl, create_job_inserts_pending sampleState "nid" "task" JobType.syncJob [] noKwargs 0 rfl⟩

instance : IsTotal Job newerFirst :=
  ⟨fun a b => Nat.le_total b.created_at a.created_at⟩

instance : IsTrans Job newerFirst :=
  ⟨fun _ _ _ hab hbc => le_trans hbc hab⟩

/-- Dropping at an index clamped by the length of a longer list equals
dropping at the raw index. -/
theorem drop_min_clamp {α : Type} (l l' : List α) (a : Nat) (h : l'.length ≤ l.length) :
    l'.drop (min a l.length) = l'.drop a := by
  rcases Nat.le_total a l.length with ha | ha
  · rw [Nat.min_eq_left ha]
  · rw [Nat.min_eq_right ha, List.drop_eq_nil_of_le h,
      List.drop_eq_nil_of_le (le_trans h ha)]

/-- Taking at an index clamped by the list's length equals the raw take. -/
theorem take_min_clamp {α : Type} (l : List α) (a : Nat) :
    l.take (min a l.length) = l.take a := by
  rcases Nat.le_total a l.length with ha | ha
  · rw [Nat.min_eq_left ha]
  · rw [Nat.min_eq_right ha, List.take_length, List.take_of_length_le ha]

/-- For a non-negative start, the Python slice `l[a:]` is a plain drop,
and `l[a:a+k]` with non-negative `k` is drop-then-take. -/
theorem pySlice_nonneg {α : Type} (l : List α) (a : Int) (ha : 0 ≤ a) :
    pySlice l a none = l.drop a.toNat ∧
    ∀ k : Int, 0 ≤ k → pySlice l a (some (a + k)) = (l.drop a.toNat).take k.toNat := by
  have hna : ¬ a < 0 := not_lt.mpr ha
  constructor
  · simp only [pySlice, pyIndex, hna, if_false, List.take_length]
    exact drop_min_clamp l l a.toNat le_rfl
  · intro k hk
    have hnak : ¬ a + k < 0 := not_lt.mpr (add_nonneg ha hk)
    simp only [pySlice, pyIndex, hna, hnak, if_false]
    rw [take_min_clamp, Int.toNat_add ha hk,
      drop_min_clamp l (l.take (a.toNat + k.toNat)) a.toNat
        (List.take_sublist (a.toNat + k.toNat) l).length_le,
      List.drop_take, Nat.add_sub_cancel_left]

/-- C8 amended: for non-negative `offset` and `limit` (negative values
instead follow Python slice semantics, counting from the end of the
list), `list_jobs` returns the status-filtered jobs stably sorted by
`created_at` descending, with the offset applied first and the limit
truncating the remainder (`limit = none` keeping everything after the
offset); the returned list is sorted newest-first. -/
theorem list_jobs_pagination (s : MemoryJobManager) (status : Option JobStatus)
    (limit : Option Int) (offset : Int) (hoff : 0 ≤ offset)
    (hlim : limit = none ∨ ∃ k, limit = some k ∧ 0 ≤ k) :
    list_jobs s status limit offset = SpecListJobs s status limit offset ∧
    List.Sorted newerFirst (list_jobs s status limit offset) := by
  have heq : list_jobs s status limit offset = SpecListJobs s status limit offset := by
    rcases hlim with rfl | ⟨k, rfl, hk⟩
    · simp only [list_jobs, SpecListJobs, Option.map_none']
      exact (pySlice_nonneg _ offset hoff).1
    · simp only [list_jobs, SpecListJobs, Option.map_some']
      exact (pySlice_nonneg _ offset hoff).2 k hk
  refine ⟨heq, ?_⟩
  rw [heq]
  have hsorted : List.Sorted newerFirst
      ((match status with
        | none => s.jobs.map Prod.snd
        | some st => (s.jobs.map Prod.snd).filter
            (fun j => j.status = st)).insertionSort newerFirst) :=
    List.sorted_insertionSort newerFirst _
  rcases limit with _ | k
  · exact List.Pairwise.sublist (List.drop_sublist _ _) hsorted
  · exact List.Pairwise.sublist
      ((List.take_sublist _ _).trans (List.drop_sublist _ _)) hsorted

/-- Job fixture for pagination scenarios: id `p<i>`, created at time `i`. -/
def pagJob (i : Nat) : Job :=
  { id := "p" ++ toString i, name := "job", job_type := JobType.syncJob, payload := [],
    status := JobStatus.pending, created_at := i, started_at := none,
    completed_at := none, result := none, error := none }

/-- Two-job store used by the negative-offset counterexample. -/
def pagState2 : MemoryJobManager :=
  { is_running := true, jobs := [("p1", pagJob 1), ("p2", pagJob 2)], queue := [] }

/-- Five-job store (inserted out of creation order) for the §8 example. -/
def pagState5 : MemoryJobManager :=
  { is_running := true,
    jobs := [("p3", pagJob 3), ("p1", pagJob 1), ("p5", pagJob 5),
             ("p2", pagJob 2), ("p4", pagJob 4)],
    queue := [] }

/-- C8 counterexample: at `offset = -1` (a value the claim's universal
quantification over offsets includes) `list_jobs` follows Python slice
semantics — the offset counts from the end of the list — returning only
the oldest job, while offset-applied-first-then-limit semantics would
return both jobs; the two disagree. -/
theorem list_jobs_negative_offset_counterexample :
    list_jobs pagState2 none none (-1) = [pagJob 1] ∧
    SpecListJobs pagState2 none none (-1) = [pagJob 2, pagJob 1] ∧
    list_jobs pagState2 none none (-1) ≠ SpecListJobs pagState2 none none (-1) := by
  refine ⟨?_, ?_, ?_⟩ <;> decide

/-- Witness for the amended C8, at the spec's own §8 example: five stored
jobs, offset 2, limit 2. -/
theorem list_jobs_pagination_witness :
    (0 : Int) ≤ 2 ∧
    ((some (2 : Int)) = none ∨ ∃ k, (some (2 : Int)) = some k ∧ 0 ≤ k) ∧
    (list_jobs pagState5 none (some 2) 2 = SpecListJobs pagState5 none (some 2) 2 ∧
     List.Sorted newerFirst (list_jobs pagState5 none (some 2) 2)) :=
  ⟨by decide, Or.inr ⟨2, rfl, by decide⟩,
    list_jobs_pagination pagState5 none (some 2) 2 (by decide) (Or.inr ⟨2, rfl, by decide⟩)⟩

/-- Concrete check of the §8 pagination example: offset 2 and limit 2 on
the five-job store return exactly the 3rd- and 4th-newest jobs. -/
theorem list_jobs_five_jobs_example :
    list_jobs pagState5 none (some 2) 2 = [pagJob 3, pagJob 2] := by decide

/-- Subscriber whose handler raises (`ValueError("boom")`). -/
def failingHandler : Nat → HandlerOutcome := fun _ => .exn "boom"

/-- Subscriber whose handler succeeds. -/
def okHandler : Nat → HandlerOutcome := fun _ => .ok

/-- C9 evaluated at the failing input: with a raising subscriber followed
by a healthy one, `_publish_event` builds the event once, invokes both
handlers, lets nothing propagate to the publishing operation and does not
block the sibling handler — but logs nothing either: the failure comes
back from `asyncio.gather(..., return_exceptions=True)` as a value that
is silently discarded, so the `except`/`logger.error` branch never runs,
contrary to the claim that the failure is caught *and logged*.  The
empty-subscriber no-op conjunct holds as claimed. -/
theorem publish_event_swallows_without_logging :
    publish_event [failingHandler, okHandler] (fun _ => (7 : Nat)) =
      { constructedEvent := some 7, delivered := [.exn "boom", .ok],
        logged := [], raisedToCaller := none } ∧
    publish_event ([] : List (Nat → HandlerOutcome)) (fun _ => (7 : Nat)) =
      { constructedEvent := none, delivered := [], logged := [],
        raisedToCaller := none } :=
  ⟨rfl, rfl⟩

/-- Every publish delivers to every current subscriber (one gathered
outcome per handler, in insertion order), and never raises to the caller. -/
theorem publish_event_delivers_to_all {Ev : Type} (handlers : List (Ev → HandlerOutcome))
    (mk : Unit → Ev) :
    (publish_event handlers mk).raisedToCaller = none ∧
    (handlers ≠ [] →
      (publish_event handlers mk).delivered = handlers.map (fun h => h (mk ()))) := by
  by_cases h : handlers.isEmpty
  · rw [List.isEmpty_iff] at h
    subst h
    exact ⟨rfl, fun hc => absurd rfl hc⟩
  · constructor <;> simp [publish_event, h, gatherReturnExceptions]

/-- Witness for the delivery lemma at a two-subscriber publish. -/
theorem publish_event_delivers_to_all_witness :
    (publish_event [failingHandler, okHandler] (fun _ => (7 : Nat))).raisedToCaller = none ∧
    (([failingHandler, okHandler] : List (Nat → HandlerOutcome)) ≠ [] →
      (publish_event [failingHandler, okHandler] (fun _ => (7 : Nat))).delivered =
        ([failingHandler, okHandler] : List (Nat → HandlerOutcome)).map
          (fun h => h ((fun _ => (7 : Nat)) ()))) :=
  publish_event_delivers_to_all [failingHandler, okHandler] (fun _ => (7 : Nat))

/-- C10: two `Job` values are `__eq__`-equal exactly when their `id`
fields are equal — equality ignores name, status, payload, timestamps,
result and error — comparison against a non-`Job` value is always
unequal, and `__hash__` depends only on `id`, so two jobs with the same
id but different contents compare equal and collide in sets and dicts. -/
theorem job_eq_and_hash_by_id_only (a b : Job) (v : PyVal) (hstr : String → UInt64)
    (hv : v.isJob = false) :
    (jobEq a b = true ↔ a.id = b.id) ∧
    jobEqAny a v = false ∧
    (a.id = b.id → jobHash hstr a = jobHash hstr b) := by
  refine ⟨?_, ?_, fun hid => by simp [jobHash, hid]⟩
  · simp [jobEq]
  · cases v with
    | jobV j => simp [PyVal.isJob] at hv
    | strV s => rfl
    | intV n => rfl
    | noneV => rfl

/-- Witness for C10: two jobs sharing id `"a"` but with different names
and statuses compare equal and hash alike; comparison with a string is
unequal. -/
theorem job_eq_and_hash_by_id_only_witness :
    (PyVal.strV "a").isJob = false ∧
    ((jobEq sampleJob { sampleJob with name := "other", status := JobStatus.failed } = true ↔
        sampleJob.id = ({ sampleJob with name := "other", status := JobStatus.failed } : Job).id) ∧
      jobEqAny sampleJob (PyVal.strV "a") = false ∧
      (sampleJob.id = ({ sampleJob with name := "other", status := JobStatus.failed } : Job).id →
        jobHash (fun _ => 0) sampleJob =
          jobHash (fun _ => 0) { sampleJob with name := "other", status := JobStatus.failed })) :=
  ⟨rfl, job_eq_and_hash_by_id_only sampleJob
    { sampleJob with name := "other", status := JobStatus.failed } (PyVal.strV "a")
    (fun _ => 0) rfl⟩
